import Mathlib

/-!
Verification development for the agent schema-builder and actor-adapter
library (TypeScript sources under `src/`).

Part 1 — Schema Builder (`createSchemas`, src/unnamed/part_000).
The builder is a pure function from a declarative context-field mapping and
an event-descriptor mapping to a canonical schema bundle.  JavaScript
objects with string keys preserve insertion order, so a mapping is embedded
as an association list `List (String × JSON)`; `Object.keys` is `map
Prod.fst`.
-/

/-- JSON values, the universe in which schema descriptors and canonical
schemas live.  Numbers are embedded as integers: no claim concerns
fractional numerics. -/
inductive JSON where
  | null
  | bool (b : Bool)
  | num (n : Int)
  | str (s : String)
  | arr (items : List JSON)
  | obj (fields : List (String × JSON))

/-- Structural (deep) equality of JSON values, the "deep-equal" comparison
snapshot tests use on canonical bundles. -/
def jsonEqb : JSON → JSON → Bool
  | .null, .null => true
  | .bool a, .bool b => a == b
  | .num a, .num b => a == b
  | .str a, .str b => a == b
  | .arr [], .arr [] => true
  | .arr (x :: xs), .arr (y :: ys) => jsonEqb x y && jsonEqb (.arr xs) (.arr ys)
  | .obj [], .obj [] => true
  | .obj ((k, v) :: fs), .obj ((l, w) :: gs) =>
      k == l && jsonEqb v w && jsonEqb (.obj fs) (.obj gs)
  | _, _ => false

/-- Field lookup in a JSON object's field list: the first binding wins,
as JavaScript property access does for the single binding an object can
hold per key. -/
def lookupField (fields : List (String × JSON)) (key : String) : Option JSON :=
  (fields.find? (fun p => p.1 == key)).map Prod.snd

/-- Member access `j[key]` on a JSON value; `none` on non-objects. -/
def getField (j : JSON) (key : String) : Option JSON :=
  match j with
  | .obj fields => lookupField fields key
  | _ => none

/-- A context or event mapping: field/event name to descriptor, in
declaration order. -/
abbrev FieldMap := List (String × JSON)

/-- Spec §3, used only to state claims about validation: a Field
Descriptor is an object whose `type` member names one of the JSON kinds.
The source never evaluates this predicate; it exists so that theorems can
speak about mappings that are *not* valid descriptor mappings. -/
def isFieldDescriptor (j : JSON) : Bool :=
  match getField j "type" with
  | some (.str k) =>
      k == "string" || k == "number" || k == "boolean" ||
      k == "object" || k == "array"
  | _ => false

/-- Payload properties declared by an event descriptor: the field list of
its `properties` member, empty when absent or not an object. -/
def payloadProperties (descriptor : JSON) : List (String × JSON) :=
  match getField descriptor "properties" with
  | some (.obj ps) => ps
  | _ => []

/-- Modelled from the spec: the canonical event schema for one named event.
`createEventSchemas` lives in `./utils`, which is not included under
`src/`; per §4.1 the normalized form is, for each event name, "an object
schema with `additionalProperties: false`, a `type` property fixed to a
constant equal to the event name, and all declared payload properties
merged in; `type` is always required" (required list `["type"]` per the
concrete scenario in §8). -/
def eventJSONSchema (name : String) (descriptor : JSON) : JSON :=
  .obj
    [ ("type", .str "object"),
      ("properties",
        .obj (("type", .obj [("const", .str name)]) :: payloadProperties descriptor)),
      ("additionalProperties", .bool false),
      ("required", .arr [.str "type"]) ]

/-- Modelled from the spec: Event Schema Normalizer (`createEventSchemas`,
declared in `./utils` which is not under `src/`).  Wraps each named event
descriptor into its canonical discriminant-tagged schema, keeping the
mapping's names and order. -/
def createEventSchemas (events : FieldMap) : FieldMap :=
  events.map (fun p => (p.1, eventJSONSchema p.1 p.2))

/-- The Canonical Schema Bundle returned by the builder: canonical context
schema, canonical event schema mapping, and the type-inference
placeholder (`types: {} as any` in the source — an empty object at
runtime). -/
structure SchemaBundle where
  context : JSON
  events : FieldMap
  types : JSON

/-- Deep equality of canonical bundles: componentwise `jsonEqb`, the event
mapping compared as the JSON object it denotes. -/
def bundleEqb (a b : SchemaBundle) : Bool :=
  jsonEqb a.context b.context && jsonEqb (.obj a.events) (.obj b.events) &&
    jsonEqb a.types b.types

/-- `createSchemas` (src/unnamed/part_000): builds the canonical context
schema inline — `type: "object"`, `properties: context`,
`additionalProperties: false`, `required: Object.keys(context)` — maps the
event descriptors through the normalizer, and returns `{}` for `types`. -/
def createSchemas (context : FieldMap) (events : FieldMap) : SchemaBundle :=
  { context :=
      .obj
        [ ("type", .str "object"),
          ("properties", .obj context),
          ("additionalProperties", .bool false),
          ("required", .arr (context.map (fun p => JSON.str p.1))) ],
    events := createEventSchemas events,
    types := .obj [] }

/-!
Part 2 — Actor Adapter Factory.  `src/unnamed/part_001` declares only the
`StatelyAgentAdapter` interface (`fromChat`, `fromChatStream`,
`fromEventChoice`, `fromToolChoice`); the implementation
(`createOpenAIAdapter`) is not included under `src/`, so the four actor
constructors are modelled from the spec (§4.2, §5, §6, §7).  The completion
transport is an explicit function argument (spec §6: request operation
taking a structured chat request and returning a completion result with an
ordered list of choices).  Event dispatch to the parent execution context
is modelled by returning, next to the actor's settled result, the ordered
log of events handed to the parent before resolution (spec §6: the dispatch
call is order-preserving and happens-before the resolving of the owning
actor; the sequential model returns the log already complete at the moment
the result is produced).
-/

/-- One message of a chat request. -/
structure ChatMessage where
  role : String
  content : String
deriving DecidableEq

/-- A structured chat completion request: model identifier plus ordered
messages. -/
structure ChatRequest where
  model : String
  messages : List ChatMessage
deriving DecidableEq

/-- A tool call selected by the model: tool name and its argument
payload. -/
structure ToolCall where
  name : String
  arguments : JSON

/-- One choice of a completion result: optional message content and
optional tool-call payload. -/
structure Choice where
  content : Option String
  toolCall : Option ToolCall

/-- A completion result: an ordered list of choices (spec §6). -/
structure Completion where
  choices : List Choice

/-- An event object handed to the parent execution context. -/
abbrev Event := JSON

/-- The error taxonomy of spec §7 that the adapter layer itself produces
(typed rejections routed to the invoking state's error path). -/
inductive AgentError where
  | completionRequest (cause : String)
  | stream (cause : String)
  | eventMapping
  | invalidToolInput
  | unknownTool (name : String)
deriving DecidableEq

/-- A non-streaming completion transport: structured request in, completion
result or transport-level failure out.  Failures carry an opaque cause. -/
abbrev Transport := ChatRequest → Except String Completion

/-- Modelled from the spec: request construction shared by all four actor
constructors — `inputFn`'s result, "if the result is a string, wraps it as
a single-message chat request using the adapter's model", otherwise the
structured request is used as is (§4.2). -/
def wrapChatRequest (model : String) : Sum String ChatRequest → ChatRequest
  | .inl prompt => { model := model, messages := [{ role := "user", content := prompt }] }
  | .inr req => req

/-- Modelled from the spec: `fromChat` (declared in src/unnamed/part_001,
implementation not under `src/`).  Evaluates `inputFn input`, wraps it,
issues the request via the transport; on success resolves with the full
completion result; on transport failure rejects with
`CompletionRequestError` carrying the underlying cause (§4.2). -/
def fromChat {α : Type} (transport : Transport) (model : String)
    (inputFn : α → Sum String ChatRequest) (input : α) :
    Except AgentError Completion :=
  match transport (wrapChatRequest model (inputFn input)) with
  | .ok result => .ok result
  | .error cause => .error (.completionRequest cause)

/-- Option resolution for `options.execute` (declared `@default true` in
src/unnamed/part_001): an absent option means `true`. -/
def resolveExecute (execute : Option Bool) : Bool :=
  execute.getD true

/-- Modelled from the spec: the one-to-one mapping of a response's choices
into event objects (§4.2); a choice that cannot be mapped makes the whole
interpretation fail, which `fromEventChoice` surfaces as
`EventMappingError`. -/
def mapChoices (mapChoice : Choice → Option Event) :
    List Choice → Option (List Event)
  | [] => some []
  | c :: cs =>
    match mapChoice c, mapChoices mapChoice cs with
    | some e, some es => some (e :: es)
    | _, _ => none

/-- Modelled from the spec: `fromEventChoice` (declared in
src/unnamed/part_001, implementation not under `src/`).  Requests a
completion; the response's choices are mapped one-to-one into event
objects by `mapChoice`.  With `execute` resolved to `true` every produced
event is dispatched to the parent context, in choice order, before the
actor resolves; with `execute` `false` no dispatch occurs.  Resolves with
the produced event list, or with an undefined result (`none`) when no
choices were returned (§4.2).  The second component is the ordered
dispatch log. -/
def fromEventChoice {α : Type} (mapChoice : Choice → Option Event)
    (transport : Transport) (model : String)
    (inputFn : α → Sum String ChatRequest) (execute : Option Bool)
    (input : α) :
    Except AgentError (Option (List Event)) × List Event :=
  match transport (wrapChatRequest model (inputFn input)) with
  | .error cause => (.error (.completionRequest cause), [])
  | .ok result =>
    match mapChoices mapChoice result.choices with
    | none => (.error .eventMapping, [])
    | some events =>
      if events.isEmpty then (.ok none, [])
      else if resolveExecute execute then (.ok (some events), events)
      else (.ok (some events), [])

/-- A Tool Descriptor (spec §3): human-readable description, the nested
actor logic — modelled as the function from the validated call arguments
to the event its result is incorporated into — and the input schema the
arguments are validated against. -/
structure ToolDescriptor where
  description : String
  src : JSON → Event
  inputSchema : JSON

/-- Name lookup in a tools registry, first binding wins. -/
def lookupTool (tools : List (String × ToolDescriptor)) (name : String) :
    Option ToolDescriptor :=
  (tools.find? (fun p => p.1 == name)).map Prod.snd

/-- The tool calls selected by a completion response, in choice order. -/
def toolCallsOf (result : Completion) : List ToolCall :=
  result.choices.filterMap (fun c => c.toolCall)

/-- Modelled from the spec: interpretation of the selected tool calls
(§4.2).  Each call is matched against the registry by name — an unmatched
name fails the call with `UnknownToolError`; a matched call's arguments
are validated against the tool's input schema (`validates` is the schema
validation contract, an external collaborator) — failing with
`InvalidToolInputError` on mismatch — and the nested actor logic's result
is incorporated into the produced events, in call order. -/
def processToolCalls (validates : JSON → JSON → Bool)
    (tools : List (String × ToolDescriptor)) :
    List ToolCall → Except AgentError (List Event)
  | [] => .ok []
  | call :: rest =>
    match lookupTool tools call.name with
    | none => .error (.unknownTool call.name)
    | some tool =>
      if validates tool.inputSchema call.arguments then
        match processToolCalls validates tools rest with
        | .ok events => .ok (tool.src call.arguments :: events)
        | .error e => .error e
      else .error .invalidToolInput

/-- Modelled from the spec: `fromToolChoice` (declared in
src/unnamed/part_001, implementation not under `src/`).  Like
`fromEventChoice` but the response's selected tool calls are interpreted
through the registry; dispatch/no-dispatch semantics mirror
`fromEventChoice`, and a failed interpretation rejects the actor with the
interpretation's error before any dispatch (§4.2). -/
def fromToolChoice {α : Type} (validates : JSON → JSON → Bool)
    (tools : List (String × ToolDescriptor)) (transport : Transport)
    (model : String) (inputFn : α → Sum String ChatRequest)
    (execute : Option Bool) (input : α) :
    Except AgentError (Option (List Event)) × List Event :=
  match transport (wrapChatRequest model (inputFn input)) with
  | .error cause => (.error (.completionRequest cause), [])
  | .ok result =>
    match processToolCalls validates tools (toolCallsOf result) with
    | .error e => (.error e, [])
    | .ok events =>
      if events.isEmpty then (.ok none, [])
      else if resolveExecute execute then (.ok (some events), events)
      else (.ok (some events), [])

/-- A streaming transport's channel: the items the adapter receives, in
arrival order — a chunk payload or a transport-level error. -/
abbrev StreamChannel := List (Sum String String)

/-- A streaming transport: structured request in, channel of chunk
payloads and transport-level errors out. -/
abbrev StreamTransport := ChatRequest → StreamChannel

/-- What a streaming actor's observer sees, in order: emitted chunks, then
a single terminal completion or error. -/
inductive StreamEvent where
  | next (chunk : String)
  | error (e : AgentError)
  | complete
deriving DecidableEq

/-- Modelled from the spec: chunk emission (§4.2).  Chunks are emitted in
arrival order; end-of-stream completes the sequence; a transport-level
error terminates the sequence with `StreamError` — whatever the channel
would still have carried after it is never emitted. -/
def emitStream : StreamChannel → List StreamEvent
  | [] => [.complete]
  | .inl chunk :: rest => .next chunk :: emitStream rest
  | .inr cause :: _ => [.error (.stream cause)]

/-- Modelled from the spec: `fromChatStream` (declared in
src/unnamed/part_001, implementation not under `src/`).  Builds the
request as the other constructors do, opens the transport's streaming
channel for it, and emits the channel's chunks as an observable
sequence. -/
def fromChatStream {α : Type} (transport : StreamTransport) (model : String)
    (inputFn : α → Sum String ChatRequest) (input : α) : List StreamEvent :=
  emitStream (transport (wrapChatRequest model (inputFn input)))

/-- The quiz example's `score` field descriptor, used as a concrete
sample input. -/
def sampleDescriptor : JSON := .obj [("type", .str "number")]

/-- A concrete context mapping with one declared field. -/
def sampleContext : FieldMap := [("score", sampleDescriptor)]

/-- The quiz example's `submit` event descriptor. -/
def sampleEventDescriptor : JSON :=
  .obj [("type", .str "object"), ("properties", .obj [])]

/-- A concrete event mapping with one declared event. -/
def sampleEvents : FieldMap := [("submit", sampleEventDescriptor)]

/-- A concrete tools registry holding a single `search` tool. -/
def sampleTools : List (String × ToolDescriptor) :=
  [("search",
    { description := "search the web",
      src := fun _ => JSON.obj [("type", JSON.str "search.result")],
      inputSchema := JSON.obj [("type", JSON.str "object")] })]

/-- A concrete tool call naming a tool absent from `sampleTools`. -/
def sampleToolCall : ToolCall := { name := "lookup", arguments := .obj [] }

/-!
Helper lemmas (shared infrastructure, not claim theorems).
-/

/-- `jsonEqb` is reflexive: the deep-equality check accepts every value
against itself. -/
theorem jsonEqb_refl : ∀ j : JSON, jsonEqb j j = true
  | .null => by simp [jsonEqb]
  | .bool b => by simp [jsonEqb]
  | .num n => by simp [jsonEqb]
  | .str s => by simp [jsonEqb]
  | .arr [] => by simp [jsonEqb]
  | .arr (x :: xs) => by
      simp [jsonEqb, jsonEqb_refl x, jsonEqb_refl (.arr xs)]
  | .obj [] => by simp [jsonEqb]
  | .obj ((k, v) :: fs) => by
      simp [jsonEqb, jsonEqb_refl v, jsonEqb_refl (.obj fs)]

/-- Choice interpretation with an always-successful per-choice mapping
succeeds and is plain `map`. -/
theorem mapChoices_total (f : Choice → Event) (l : List Choice) :
    mapChoices (fun c => some (f c)) l = some (l.map f) := by
  induction l with
  | nil => rfl
  | cons c cs ih => simp [mapChoices, ih]

/-- Chunks followed by a transport error emit the chunks in order and then
the single terminal `StreamError`; the channel's remainder is never
emitted. -/
theorem emitStream_chunks_error (chunks : List String) (cause : String)
    (rest : StreamChannel) :
    emitStream (chunks.map Sum.inl ++ Sum.inr cause :: rest)
      = chunks.map StreamEvent.next ++ [.error (.stream cause)] := by
  induction chunks with
  | nil => rfl
  | cons c cs ih => simp [emitStream, ih]

/-- A channel that ends without error emits its chunks in order and then
completes. -/
theorem emitStream_chunks_complete (chunks : List String) :
    emitStream (chunks.map Sum.inl)
      = chunks.map StreamEvent.next ++ [.complete] := by
  induction chunks with
  | nil => rfl
  | cons c cs ih => simp [emitStream, ih]

/-!
Claim theorems.
-/

/-- C1: for every context field mapping (key-unique, as JavaScript objects
are) and any event mapping, the canonical context schema is exactly the
object schema with `type: "object"`, the declared properties, closed to
additional properties, and `required` listing exactly the declared field
names in declaration order, with no duplicates and no omissions. -/
theorem createSchemas_context_canonical (context events : FieldMap)
    (h : (context.map Prod.fst).Nodup) :
    (createSchemas context events).context =
      JSON.obj
        [ ("type", .str "object"),
          ("properties", .obj context),
          ("additionalProperties", .bool false),
          ("required", .arr (context.map (fun p => JSON.str p.1))) ]
    ∧ (context.map (fun p => JSON.str p.1)).Nodup := by
  refine ⟨rfl, ?_⟩
  have hinj : Function.Injective JSON.str := fun a b hab => by
    injection hab
  have hmap : (context.map Prod.fst).map JSON.str
      = context.map (fun p => JSON.str p.1) := by
    simp [List.map_map, Function.comp]
  rw [← hmap]
  exact h.map hinj

/-- C1 witness: the quiz example's one-field context at a concrete
input. -/
theorem createSchemas_context_canonical_witness :
    (sampleContext.map Prod.fst).Nodup
    ∧ (createSchemas sampleContext sampleEvents).context =
        JSON.obj
          [ ("type", .str "object"),
            ("properties", .obj sampleContext),
            ("additionalProperties", .bool false),
            ("required", .arr [.str "score"]) ] :=
  ⟨by simp [sampleContext],
   (createSchemas_context_canonical sampleContext sampleEvents
      (by simp [sampleContext])).1⟩

/-- C2: for every event mapping and every declared event, the canonical
event schema produced for it appears in the normalized mapping, is closed
to additional properties, requires `type`, fixes the `type` property to
the constant event name, and carries every declared payload property
unchanged. -/
theorem createEventSchemas_discriminant (events : FieldMap) (name : String)
    (descriptor : JSON) (h : (name, descriptor) ∈ events) :
    (name, eventJSONSchema name descriptor) ∈ createEventSchemas events
    ∧ getField (eventJSONSchema name descriptor) "additionalProperties"
        = some (.bool false)
    ∧ getField (eventJSONSchema name descriptor) "required"
        = some (.arr [.str "type"])
    ∧ ∃ props,
        getField (eventJSONSchema name descriptor) "properties"
          = some (.obj props)
        ∧ lookupField props "type" = some (.obj [("const", .str name)])
        ∧ ∀ q ∈ payloadProperties descriptor, q ∈ props := by
  refine ⟨?_, by simp [eventJSONSchema, getField, lookupField],
    by simp [eventJSONSchema, getField, lookupField], ?_⟩
  · exact List.mem_map_of_mem (fun p => (p.1, eventJSONSchema p.1 p.2)) h
  · refine ⟨("type", .obj [("const", .str name)]) :: payloadProperties descriptor,
      by simp [eventJSONSchema, getField, lookupField],
      by simp [lookupField], ?_⟩
    intro q hq
    exact List.mem_cons_of_mem _ hq

/-- C2 witness: the quiz example's `submit` event at a concrete input. -/
theorem createEventSchemas_discriminant_witness :
    ("submit", sampleEventDescriptor) ∈ sampleEvents
    ∧ getField (eventJSONSchema "submit" sampleEventDescriptor)
        "additionalProperties" = some (.bool false)
    ∧ getField (eventJSONSchema "submit" sampleEventDescriptor) "required"
        = some (.arr [.str "type"]) :=
  ⟨by simp [sampleEvents],
   (createEventSchemas_discriminant sampleEvents "submit" sampleEventDescriptor
      (by simp [sampleEvents])).2.1,
   (createEventSchemas_discriminant sampleEvents "submit" sampleEventDescriptor
      (by simp [sampleEvents])).2.2.1⟩

/-- C3 counterexample: `JSON.null` is not a valid Field Descriptor, yet
`createSchemas` on a mapping holding it returns a canonical bundle
normally — the invalid descriptor is passed through into `properties`
untouched and no failure of any kind occurs, so the builder does not
fail with `InvalidSchemaError`. -/
theorem createSchemas_no_validation_counterexample :
    isFieldDescriptor JSON.null = false
    ∧ createSchemas [("x", JSON.null)] [] =
        { context :=
            JSON.obj
              [ ("type", .str "object"),
                ("properties", .obj [("x", JSON.null)]),
                ("additionalProperties", .bool false),
                ("required", .arr [.str "x"]) ],
          events := [],
          types := .obj [] } :=
  ⟨rfl, rfl⟩

/-- C3 (amended): the builder performs no validation of the field
descriptors — even when some value of the context mapping is not a valid
Field Descriptor it returns the canonical bundle normally, the invalid
descriptors passed through unchanged, and never fails with
`InvalidSchemaError`. -/
theorem createSchemas_invalid_descriptor_returns (context events : FieldMap)
    (h : ∃ p ∈ context, isFieldDescriptor p.2 = false) :
    (createSchemas context events).context =
      JSON.obj
        [ ("type", .str "object"),
          ("properties", .obj context),
          ("additionalProperties", .bool false),
          ("required", .arr (context.map (fun p => JSON.str p.1))) ]
    ∧ (createSchemas context events).events = createEventSchemas events
    ∧ (createSchemas context events).types = .obj [] :=
  ⟨rfl, rfl, rfl⟩

/-- C3 (amended) witness: the invalid one-field mapping at a concrete
input. -/
theorem createSchemas_invalid_descriptor_returns_witness :
    (∃ p ∈ ([("x", JSON.null)] : FieldMap), isFieldDescriptor p.2 = false)
    ∧ (createSchemas [("x", JSON.null)] []).types = .obj [] :=
  ⟨⟨("x", JSON.null), by simp, rfl⟩,
   (createSchemas_invalid_descriptor_returns [("x", JSON.null)] []
      ⟨("x", JSON.null), by simp, rfl⟩).2.2⟩

/-- C4: the Schema Builder is total — for every context and event mapping,
well-formed or not, it returns the canonical bundle built purely
positionally from its input, inspecting no descriptor's internal
structure and never raising any error. -/
theorem createSchemas_total (context events : FieldMap) :
    createSchemas context events =
      { context :=
          JSON.obj
            [ ("type", .str "object"),
              ("properties", .obj context),
              ("additionalProperties", .bool false),
              ("required", .arr (context.map (fun p => JSON.str p.1))) ],
        events := events.map (fun p => (p.1, eventJSONSchema p.1 p.2)),
        types := .obj [] }
    ∧ ∀ p ∈ context,
        ∃ props, getField (createSchemas context events).context "properties"
            = some (.obj props) ∧ p ∈ props :=
  ⟨rfl, fun p hp => ⟨context, rfl, hp⟩⟩

/-- C5: the type-inference placeholder of every bundle is the same stable
empty object, independent of the supplied mappings. -/
theorem createSchemas_types_empty (context events : FieldMap) :
    (createSchemas context events).types = JSON.obj []
    ∧ (createSchemas context events).types = (createSchemas [] []).types :=
  ⟨rfl, rfl⟩

/-- C6: calling the Schema Builder twice with identical inputs yields
deep-equal canonical bundles: the executable deep-equality comparison
accepts the two results. -/
theorem createSchemas_deterministic (context events : FieldMap) :
    bundleEqb (createSchemas context events) (createSchemas context events)
      = true := by
  unfold bundleEqb
  simp [jsonEqb_refl]

/-- C7: a `fromChat` actor resolves with exactly the completion an echoing
stub transport returns, for every input and input function; with a failing
transport it rejects with `CompletionRequestError` carrying the underlying
cause; and a string result of `inputFn` is wrapped as the single-message
chat request using the adapter's stored model identifier. -/
theorem fromChat_roundtrip {α : Type} (model : String)
    (inputFn : α → Sum String ChatRequest) (input : α)
    (result : Completion) (cause : String) (prompt : String) :
    fromChat (fun _ => .ok result) model inputFn input = .ok result
    ∧ fromChat (fun _ => .error cause) model inputFn input
        = .error (.completionRequest cause)
    ∧ wrapChatRequest model (.inl prompt)
        = { model := model, messages := [{ role := "user", content := prompt }] } :=
  ⟨rfl, rfl, rfl⟩

/-- C8: with `execute` at its default, a `fromEventChoice` actor whose
stub transport returns the given choices dispatches the mapped events to
the parent in exactly choice order (the log is complete when the result is
produced, i.e. the actor resolves only after every dispatch) and resolves
with the produced list — or with an undefined result when no choices were
returned; with `execute` set to `false` the dispatch log is empty and the
resolution value is unchanged. -/
theorem fromEventChoice_dispatch_order {α : Type} (toEvent : Choice → Event)
    (model : String) (inputFn : α → Sum String ChatRequest) (input : α)
    (choices : List Choice) :
    fromEventChoice (fun c => some (toEvent c)) (fun _ => .ok ⟨choices⟩)
        model inputFn none input
      = (.ok (if choices.isEmpty then none else some (choices.map toEvent)),
         choices.map toEvent)
    ∧ fromEventChoice (fun c => some (toEvent c)) (fun _ => .ok ⟨choices⟩)
        model inputFn (some false) input
      = (.ok (if choices.isEmpty then none else some (choices.map toEvent)),
         []) := by
  unfold fromEventChoice
  simp only [mapChoices_total]
  cases choices with
  | nil => simp [resolveExecute]
  | cons c cs => simp [resolveExecute]

/-- C9: a `fromToolChoice` actor whose completion response selects a tool
call naming a tool absent from the registry rejects with
`UnknownToolError` and dispatches nothing to the parent context. -/
theorem fromToolChoice_unknown_tool {α : Type}
    (validates : JSON → JSON → Bool)
    (tools : List (String × ToolDescriptor)) (model : String)
    (inputFn : α → Sum String ChatRequest) (execute : Option Bool)
    (input : α) (call : ToolCall) (rest : List Choice)
    (h : lookupTool tools call.name = none) :
    fromToolChoice validates tools
        (fun _ => .ok ⟨{ content := none, toolCall := some call } :: rest⟩)
        model inputFn execute input
      = (.error (.unknownTool call.name), []) := by
  unfold fromToolChoice
  simp [toolCallsOf, processToolCalls, h]

/-- C9 witness: registry `search`, tool call `lookup`, at a concrete
input. -/
theorem fromToolChoice_unknown_tool_witness :
    lookupTool sampleTools "lookup" = none
    ∧ fromToolChoice (fun _ _ => true) sampleTools
        (fun _ => .ok ⟨[{ content := none, toolCall := some sampleToolCall }]⟩)
        "gpt-3.5-turbo-1106" (fun _ : Nat => .inl "which tool?") none 0
      = (.error (.unknownTool "lookup"), []) :=
  ⟨rfl,
   fromToolChoice_unknown_tool (fun _ _ => true) sampleTools
     "gpt-3.5-turbo-1106" (fun _ : Nat => .inl "which tool?") none 0
     sampleToolCall [] rfl⟩

/-- C10: a `fromChatStream` actor emits the transport channel's chunks in
arrival order; when the channel ends without error the sequence
completes, and when a transport-level error arrives the sequence
terminates with `StreamError` and nothing the channel would still carry is
ever emitted. -/
theorem fromChatStream_order_error_complete {α : Type} (model : String)
    (inputFn : α → Sum String ChatRequest) (input : α)
    (chunks : List String) (cause : String) (rest : StreamChannel) :
    fromChatStream (fun _ => chunks.map Sum.inl ++ Sum.inr cause :: rest)
        model inputFn input
      = chunks.map StreamEvent.next ++ [.error (.stream cause)]
    ∧ fromChatStream (fun _ => chunks.map Sum.inl) model inputFn input
      = chunks.map StreamEvent.next ++ [.complete] :=
  ⟨emitStream_chunks_error chunks cause rest,
   emitStream_chunks_complete chunks⟩
